import Mathlib

/-!
Verification of the content-enrichment pipeline and hybrid retrieval engine
of the appointy-synapse-task repository, shallowly embedded in Lean.

The embedding covers:
* the Prisma data model (items, contents);
* the query interpreter `extractTypeFilter` of
  `src/server/src/controllers/search.ts`, including a faithful model of the
  JavaScript word-boundary regex removals it performs;
* the body of the `semanticSearch` controller (same file), parametrised by
  the outcome of the embedding call + vector-store query;
* the in-memory vector store of `src/server/src/services/vector-db.ts`
  (`cosineSimilarity`, `search`, `searchSimilar`), over `ℝ`;
* the worker job `processItemJob` / `processTextItem` / the image branch of
  `processFileItem` from `src/worker/src/jobs/process-item.ts`.
-/

namespace Synapse

/-! ## Data model (from prisma migration 20251108061332_init) -/

inductive ItemStatus where
  | PENDING | PROCESSING | PROCESSED | FAILED
deriving DecidableEq

inductive ItemType where
  | NOTE | ARTICLE | PRODUCT | IMAGE | TODO | FILE
deriving DecidableEq

structure Content where
  text : Option String
  ocrText : Option String
  html : Option String
deriving DecidableEq

structure Item where
  id : String
  userId : String
  type : ItemType
  title : Option String
  summary : Option String
  sourceUrl : Option String
  status : ItemStatus
  createdAt : Nat
  content : Option Content
deriving DecidableEq

/-! ## String machinery

JavaScript string operations used by the controller, modelled on `List Char`
(`String.data`).  `toLowerCase`, `trim`, `split(/\s+/)`, substring `includes`,
and global removal of `\b(w1|w2|…)\b`-style regex alternations. -/

/-- JS `\w`: ASCII letter, digit or underscore. -/
def wordChar (c : Char) : Bool := c.isAlpha || c.isDigit || c == '_'

/-- Case-insensitive character comparison (for the regex `i` flag). -/
def charEqCI (a b : Char) : Bool := a.toLower == b.toLower

/-- Lowercase a string (JS `toLowerCase`, ASCII range). -/
def lowerStr (s : String) : String := String.mk (s.data.map Char.toLower)

/-- Substring test on char lists (JS `String.prototype.includes`). -/
def subChars (needle : List Char) : List Char → Bool
  | [] => needle.isEmpty
  | c :: rest => List.isPrefixOf needle (c :: rest) || subChars needle rest

/-- JS `hay.includes(needle)` (case-sensitive). -/
def strHas (hay needle : String) : Bool := subChars needle.data hay.data

/-- JS `trim`: strip leading and trailing whitespace. -/
def trimChars (cs : List Char) : List Char :=
  ((cs.dropWhile Char.isWhitespace).reverse.dropWhile Char.isWhitespace).reverse

def trimStr (s : String) : String := String.mk (trimChars s.data)

/-- Replace every run of whitespace by a single space (JS `replace(/\s+/g, ' ')`).
The boolean flag records whether the previous character was whitespace. -/
def collapseWsAux : Bool → List Char → List Char
  | _, [] => []
  | prevWs, c :: cs =>
      if c.isWhitespace then
        if prevWs then collapseWsAux true cs else ' ' :: collapseWsAux true cs
      else c :: collapseWsAux false cs

def collapseWs (s : String) : String := String.mk (collapseWsAux false s.data)

/-- JS `query.split(/\s+/).filter(w => w.length > 0)`. -/
def splitWords (s : String) : List String :=
  ((s.data.splitOnP Char.isWhitespace).map String.mk).filter (fun w => w ≠ "")

/-! ### Word-boundary alternation removal

A JS regex of the shape `/\b(alt1|alt2|…)\b/gi` with literal alternatives
(each alternative a sequence of words separated by `\s+`; a trailing `s?` is
expanded into the plural alternative followed by the singular one, matching
the greedy optional quantifier) applied with `.replace(…, '')`.  The scanner
walks the string; at each `\b` position it tries the alternatives in regex
order, requires a `\b` after the match, deletes the matched span and resumes
after it, exactly as the JS global replace does. -/

/-- Match a literal word case-insensitively, returning the rest of the input. -/
def matchLit : List Char → List Char → Option (List Char)
  | [], cs => some cs
  | _ :: _, [] => none
  | p :: ps, c :: cs => if charEqCI p c then matchLit ps cs else none

/-- Greedily drop whitespace. -/
def dropWsGreedy : List Char → List Char
  | [] => []
  | c :: cs => if c.isWhitespace then dropWsGreedy cs else c :: cs

/-- Consume `\s+`: at least one whitespace character, greedily. -/
def eatWs : List Char → Option (List Char)
  | [] => none
  | c :: cs => if c.isWhitespace then some (dropWsGreedy cs) else none

/-- Match the remaining words of an alternative, each preceded by `\s+`. -/
def matchTail : List (List Char) → List Char → Option (List Char)
  | [], cs => some cs
  | w :: ws, cs =>
      match eatWs cs with
      | none => none
      | some cs1 =>
          match matchLit w cs1 with
          | none => none
          | some cs2 => matchTail ws cs2

/-- Match one alternative (a nonempty sequence of words). -/
def matchAlt (alt : List (List Char)) (cs : List Char) : Option (List Char) :=
  match alt with
  | [] => none
  | w :: ws =>
      match matchLit w cs with
      | none => none
      | some cs1 => matchTail ws cs1

/-- The closing `\b`: end of input or a non-word character. -/
def endBoundary : List Char → Bool
  | [] => true
  | c :: _ => !wordChar c

/-- Try the alternatives in order; an alternative only succeeds if a word
boundary follows the matched span (regex backtracking over the alternation). -/
def tryAlts (alts : List (List (List Char))) (cs : List Char) : Option (List Char) :=
  match alts with
  | [] => none
  | alt :: rest =>
      match matchAlt alt cs with
      | some cs1 => if endBoundary cs1 then some cs1 else tryAlts rest cs
      | none => tryAlts rest cs

/-- One global-replace pass deleting every match.  `prevW` tracks whether the
previous character of the original string was a word character (for the
opening `\b`).  The fuel argument bounds the recursion; every step of the
scanner consumes at least one character for the nonempty alternatives used
below, so `cs.length + 1` fuel is always sufficient. -/
def removeWordsAux (alts : List (List (List Char))) : Nat → Bool → List Char → List Char
  | 0, _, cs => cs
  | _ + 1, _, [] => []
  | fuel + 1, prevW, c :: cs =>
      if !prevW && wordChar c then
        match tryAlts alts (c :: cs) with
        | some rest => removeWordsAux alts fuel true rest
        | none => c :: removeWordsAux alts fuel (wordChar c) cs
      else
        c :: removeWordsAux alts fuel (wordChar c) cs

/-- JS `s.replace(/\b(alts)\b/gi, '')`. -/
def removeWords (alts : List (List String)) (s : String) : String :=
  String.mk (removeWordsAux (alts.map (·.map String.data)) (s.data.length + 1) false s.data)

/-! ## Query interpreter (`extractTypeFilter`, search.ts lines 22-86)

Each regex alternation from the source is spelled out with `xs?` expanded
into plural-then-singular (the greedy optional quantifier tries the plural
first), keeping the source's alternative order. -/

def imageAlts : List (List String) :=
  [["images"], ["image"], ["photos"], ["photo"], ["pictures"], ["picture"],
   ["screenshots"], ["screenshot"], ["uploaded", "image"], ["image", "with"],
   ["images", "with"], ["photo", "with"], ["picture", "with"]]

def linkAlts : List (List String) :=
  [["links"], ["link"], ["urls"], ["url"], ["articles"], ["article"],
   ["websites"], ["website"], ["pages"], ["page"], ["http"]]

def noteAlts : List (List String) :=
  [["notes"], ["note"], ["texts"], ["text"], ["memos"], ["memo"],
   ["thoughts"], ["thought"]]

def fileAlts : List (List String) :=
  [["files"], ["file"], ["documents"], ["document"], ["pdfs"], ["pdf"],
   ["uploaded", "file"]]

def todoAlts : List (List String) :=
  [["todos"], ["todo"], ["tasks"], ["task"], ["reminders"], ["reminder"],
   ["checklists"], ["checklist"]]

def stopAlts1 : List (List String) :=
  [["about"], ["with"], ["containing"], ["that"], ["which"], ["related", "to"],
   ["regarding"], ["concerning"], ["having"], ["showing"], ["displaying"]]

def stopAlts2 : List (List String) :=
  [["with", "text"], ["that", "have"], ["that", "contain"],
   ["which", "have"], ["which", "contain"]]

/-- Shallow embedding of `extractTypeFilter` (search.ts): detect a content-kind
filter from lexical keywords (first-match-wins in the source's branch order:
image, link, note, file, todo), strip the matched keywords from the query,
then strip the stop-word list, collapse whitespace and trim. -/
def extractTypeFilter (query : String) : Option ItemType × String :=
  let lowerQuery := lowerStr query
  let inc := fun (lit : String) => strHas lowerQuery lit
  let step1 : Option ItemType × String :=
    if inc "image" || inc "photo" || inc "picture" || inc "screenshot" ||
       inc "uploaded image" || inc "images i" || inc "images with" ||
       inc "image with" || inc "photo with" || inc "picture with" then
      (some ItemType.IMAGE, trimStr (removeWords imageAlts query))
    else if inc "link" || inc "url" || inc "article" || inc "website" ||
       inc "page" || inc "http" then
      (some ItemType.ARTICLE, trimStr (removeWords linkAlts query))
    else if inc "note" || inc "text" || inc "memo" || inc "thought" then
      (some ItemType.NOTE, trimStr (removeWords noteAlts query))
    else if inc "file" || inc "document" || inc "pdf" || inc "uploaded file" then
      (some ItemType.FILE, trimStr (removeWords fileAlts query))
    else if inc "todo" || inc "task" || inc "reminder" || inc "checklist" then
      (some ItemType.TODO, trimStr (removeWords todoAlts query))
    else (none, query)
  (step1.1, trimStr (collapseWs (removeWords stopAlts2 (removeWords stopAlts1 step1.2))))

/-! ## Hybrid search controller (`semanticSearch`, search.ts)

The controller body after input validation and session auth.  The semantic
phase (OpenAI embedding call + `searchSimilar`) is abstracted by the
`similarItems` parameter: the list of `(itemId, score)` pairs it produced,
which is empty when the provider is unconfigured, when the embedding call
failed, or when no stored vector qualified. -/

/-- Prisma `field: { contains: w, mode: 'insensitive' }` on a nullable column:
a `NULL` column never matches. -/
def optHasCI (o : Option String) (w : String) : Bool :=
  match o with
  | none => false
  | some s => strHas (lowerStr s) (lowerStr w)

/-- One word's OR-across-fields condition from the keyword `where` clause:
title, summary, content.text, content.ocrText. -/
def wordCond (it : Item) (w : String) : Bool :=
  optHasCI it.title w || optHasCI it.summary w ||
  (match it.content with
   | some c => optHasCI c.text w || optHasCI c.ocrText w
   | none => false)

/-- Optional type filter from the `where` clause. -/
def typeOk (typeFilter : Option ItemType) (it : Item) : Bool :=
  match typeFilter with
  | some t => it.type == t
  | none => true

/-- The keyword `where` clause: user scope, optional type filter, and
AND-across-words of the per-word OR-across-fields conditions. -/
def keywordPred (u : String) (typeFilter : Option ItemType) (ws : List String)
    (it : Item) : Bool :=
  it.userId == u && typeOk typeFilter it && ws.all (fun w => wordCond it w)

/-- Stable insertion (descending `createdAt`) used to model prisma's
`orderBy: { createdAt: 'desc' }`. -/
def insertDesc (x : Item) : List Item → List Item
  | [] => [x]
  | y :: ys => if x.createdAt > y.createdAt then x :: y :: ys else y :: insertDesc x ys

def sortByCreatedDesc (l : List Item) : List Item :=
  l.foldl (fun acc x => insertDesc x acc) []

/-- `prisma.item.findMany({ where, orderBy: createdAt desc, take: limit })`. -/
def keywordPhase (store : List Item) (u : String) (typeFilter : Option ItemType)
    (ws : List String) (limit : Nat) : List Item :=
  (sortByCreatedDesc (store.filter (keywordPred u typeFilter ws))).take limit

/-- A search response row: the item together with its `relevanceScore`. -/
structure SearchResult where
  item : Item
  relevanceScore : ℚ
deriving DecidableEq

/-- The source's flat relevance score 0.6 for keyword matches, as the reduced
rational 3/5 (a literal, so that concrete runs evaluate in the kernel). -/
def keywordScore : ℚ := Rat.mk' 3 5

/-- The source's flat relevance score 0.7 for the direct type search. -/
def typeScore : ℚ := Rat.mk' 7 10

/-- The keyword-fallback branch (`similarItems.length === 0`).  The source sets
`searchQuery = cleanedQuery || query` and picks the AND-word list from the
dead `typeFilter && !searchQuery` arm, the `searchQuery` arm, or (no type
filter, empty query) the original query.  Keyword matches get flat score 0.6. -/
def keywordFallback (store : List Item) (u : String) (query : String)
    (limit : Nat) : List SearchResult :=
  let tf := extractTypeFilter query
  let searchQuery := if tf.2 == "" then query else tf.2
  let ws : List String :=
    if tf.1.isSome && searchQuery == "" then []
    else if searchQuery ≠ "" then splitWords searchQuery
    else if tf.1.isNone then splitWords query
    else []
  (keywordPhase store u tf.1 ws limit).map (fun it => ⟨it, keywordScore⟩)

/-- The `where` clause of the semantic branch's `findMany`: id among the
similar item ids, the session user, and the optional type filter. -/
def semPred (similarItems : List (String × ℚ)) (u : String)
    (tfo : Option ItemType) (it : Item) : Bool :=
  similarItems.any (fun p => p.1 == it.id) && it.userId == u && typeOk tfo it

/-- The semantic branch: fetch the similar items scoped to the user (and the
type filter, if any), keep them in `similarItems` order with the similarity
score; if a type filter was detected but nothing survived, run the direct
type search over the cleaned query with flat score 0.7. -/
def semanticBranch (store : List Item) (u : String) (query : String)
    (limit : Nat) (similarItems : List (String × ℚ)) : List SearchResult :=
  let tf := extractTypeFilter query
  let items := store.filter (semPred similarItems u tf.1)
  let results := similarItems.filterMap (fun p =>
    (items.find? (fun it => it.id == p.1)).map (fun it => ⟨it, p.2⟩))
  if tf.1.isSome && results.isEmpty then
    let ws : List String := if tf.2 == "" then [] else splitWords tf.2
    (keywordPhase store u tf.1 ws limit).map (fun it => ⟨it, typeScore⟩)
  else results

/-- Shallow embedding of the `semanticSearch` controller body. -/
def semanticSearchRun (store : List Item) (u : String) (query : String)
    (limit : Nat) (similarItems : List (String × ℚ)) : List SearchResult :=
  if similarItems.isEmpty then keywordFallback store u query limit
  else semanticBranch store u query limit similarItems

/-- The spec's hybrid weighting `0.7×semantic + 0.3×keyword` (modelled from
the spec's words; the source has no such combination). -/
def specHybridScore (semantic keyword : ℚ) : ℚ :=
  7/10 * semantic + 3/10 * keyword

/-! ## In-memory vector store (`src/server/src/services/vector-db.ts`)

Vectors are modelled as `List ℝ`; the store's `Map` iterates in insertion
order and is modelled as a list of records.  JS exceptions are `Except`. -/

structure VectorRecord where
  id : String
  itemId : String
  vector : List ℝ

structure VectorHit where
  id : String
  itemId : String
  score : ℝ

structure SimilarResult where
  itemId : String
  score : ℝ

/-- The `dotProduct` accumulator of `cosineSimilarity`. -/
noncomputable def dotProduct (a b : List ℝ) : ℝ := (List.zipWith (fun x y => x * y) a b).sum

/-- The `normA`/`normB` accumulators before the square root. -/
noncomputable def sumSq (a : List ℝ) : ℝ := (a.map (fun x => x * x)).sum

/-- Shallow embedding of `InMemoryVectorStore.cosineSimilarity`: throws when
the lengths differ, returns 0 when either norm is 0, else the normalized dot
product. -/
noncomputable def cosineSimilarity (a b : List ℝ) : Except String ℝ :=
  if a.length ≠ b.length then .error "Vectors must have same length"
  else if Real.sqrt (sumSq a) = 0 ∨ Real.sqrt (sumSq b) = 0 then .ok 0
  else .ok (dotProduct a b / (Real.sqrt (sumSq a) * Real.sqrt (sumSq b)))

/-- The per-record loop of `InMemoryVectorStore.search`: the similarity
computation is wrapped in `try/catch`, so a record whose similarity
computation throws is skipped (the error is logged, not re-raised). -/
noncomputable def searchHits (recs : List VectorRecord) (q : List ℝ) : List VectorHit :=
  recs.filterMap (fun r =>
    match cosineSimilarity q r.vector with
    | .ok s => some ⟨r.id, r.itemId, s⟩
    | .error _ => none)

/-- Stable insertion for the descending score sort
(`results.sort((a, b) => b.score - a.score)`). -/
noncomputable def insertHitDesc (x : VectorHit) : List VectorHit → List VectorHit
  | [] => [x]
  | y :: ys => if x.score > y.score then x :: y :: ys else y :: insertHitDesc x ys

noncomputable def sortHitsDesc (l : List VectorHit) : List VectorHit :=
  l.foldl (fun acc x => insertHitDesc x acc) []

/-- Shallow embedding of `InMemoryVectorStore.search`: score every record
(skipping the ones that throw), sort descending, truncate to `limit`. -/
noncomputable def vectorStoreSearch (recs : List VectorRecord) (q : List ℝ)
    (limit : Nat) : List VectorHit :=
  (sortHitsDesc (searchHits recs q)).take limit

noncomputable def insertSimDesc (x : SimilarResult) : List SimilarResult → List SimilarResult
  | [] => [x]
  | y :: ys => if x.score > y.score then x :: y :: ys else y :: insertSimDesc x ys

noncomputable def sortSimDesc (l : List SimilarResult) : List SimilarResult :=
  l.foldl (fun acc x => insertSimDesc x acc) []

/-- Shallow embedding of `searchSimilar`: ask the store for `limit × 3`
candidates, filter by `minScore` and sort; if some candidates exist but none
reaches `minScore`, return the top `limit` candidates anyway. -/
noncomputable def searchSimilar (recs : List VectorRecord) (q : List ℝ)
    (limit : Nat) (minScore : ℝ) : List SimilarResult :=
  let results := vectorStoreSearch recs q (limit * 3)
  if results.isEmpty then []
  else
    let filtered := sortSimDesc
      ((results.filter (fun r => minScore ≤ r.score)).map (fun r => ⟨r.itemId, r.score⟩))
    if filtered.isEmpty && !results.isEmpty then
      (results.take limit).map (fun r => ⟨r.itemId, r.score⟩)
    else
      filtered.take limit

/-! ## Enrichment worker (`src/worker/src/jobs/process-item.ts`) -/

/-- The item fields the enrichment steps may write (never the status). -/
structure ItemFields where
  title : Option String
  summary : Option String
  type : ItemType
deriving DecidableEq

structure WorkerItem where
  status : ItemStatus
  fields : ItemFields
deriving DecidableEq

/-- The observable outcome of one `processItemJob` invocation: the final
database row, the successive `status` values written to it (starting from
the initial one), and whether the job function threw (which is what makes
BullMQ schedule a retry). -/
structure JobRun where
  finalItem : Option WorkerItem
  statusTrace : List ItemStatus
  threw : Bool
deriving DecidableEq

/-- Shallow embedding of `processItemJob`.  `enrich` is the outcome of the
enrich-by-kind dispatch (`processTextItem` / `processLinkItem` /
`processFileItem`): `.ok` with the fields it wrote, or `.error` when it threw
(partial field writes of a failed enrichment are not tracked — the claim
under verification concerns only `status`).  `embedStep` is the outcome of
`generateAndStoreEmbedding`; the source catches its errors and merely logs
them, so both cases continue to `PROCESSED`.  When the item row is missing,
the very first `prisma.item.update` throws and the catch handler's update to
`FAILED` throws as well, so the job throws without writing any status. -/
def processItemJob (item0 : Option WorkerItem)
    (enrich : ItemFields → Except String ItemFields)
    (embedStep : Except String Unit) : JobRun :=
  match item0 with
  | none => { finalItem := none, statusTrace := [], threw := true }
  | some it0 =>
      match enrich it0.fields with
      | .error _ =>
          { finalItem := some ⟨.FAILED, it0.fields⟩,
            statusTrace := [it0.status, .PROCESSING, .FAILED],
            threw := true }
      | .ok f1 =>
          match embedStep with
          | .ok _ =>
              { finalItem := some ⟨.PROCESSED, f1⟩,
                statusTrace := [it0.status, .PROCESSING, .PROCESSED],
                threw := false }
          | .error _ =>
              { finalItem := some ⟨.PROCESSED, f1⟩,
                statusTrace := [it0.status, .PROCESSING, .PROCESSED],
                threw := false }

/-- The status transitions the lifecycle invariant allows. -/
def statusStep (a b : ItemStatus) : Prop :=
  (a = .PENDING ∧ b = .PROCESSING) ∨
  (a = .PROCESSING ∧ (b = .PROCESSED ∨ b = .FAILED))

/-- The truncation fallback of `processTextItem`:
`text.length > 100 ? text.substring(0, 100) + '...' : text` (JS string
indices are code units; here characters). -/
def simpleSummary (text : String) : String :=
  if 100 < text.data.length then String.mk (text.data.take 100) ++ "..." else text

structure TextAnalysis where
  summary : String
  type : ItemType
deriving DecidableEq

/-- Shallow embedding of `processTextItem`.  `configured` is whether
`OPENAI_API_KEY` is usable; `analyze` is the outcome of the `analyzeText`
call.  The function catches the AI error itself (falling back to the
truncated summary), so it always completes and returns the field update it
wrote. -/
def processTextItem (configured : Bool) (analyze : Except String TextAnalysis)
    (text : String) (f : ItemFields) : ItemFields :=
  if !configured then { f with summary := some (simpleSummary text) }
  else
    match analyze with
    | .ok a => { f with summary := some a.summary, type := a.type }
    | .error _ => { f with summary := some (simpleSummary text) }

/-- The content/summary writes performed by the image branch of
`processFileItem`; `none` means the corresponding column is left untouched. -/
structure FileOutcome where
  contentText : Option String
  contentOcr : Option String
  summary : Option String
deriving DecidableEq

/-- Shallow embedding of the OCR + vision join inside `processFileItem`.
`ocrRes` and `visionRes` are the two `Promise.allSettled` branches
(`worker.recognize` and the vision call); a rejected branch contributes the
empty string.  `aiConfigured`/`summarize` model the optional
`generateSummary` call.  The function is total: the source catches every
error, so the job completes whatever the branches do. -/
def processImageFile (aiConfigured : Bool) (summarize : String → Except String String)
    (title : String) (ocrRes visionRes : Except String String) : FileOutcome :=
  let text := match ocrRes with | .ok t => t | .error _ => ""
  let vision := match visionRes with | .ok d => d | .error _ => ""
  if text ≠ "" && trimStr text ≠ "" then
    let newText :=
      if vision ≠ "" then vision
      else if trimStr text ≠ "" then trimStr text
      else "Image file: " ++ title
    let base : FileOutcome :=
      { contentText := some newText, contentOcr := some (trimStr text), summary := none }
    if aiConfigured then
      let summaryText :=
        if vision ≠ "" then
          (if trimStr text ≠ "" then vision ++ "\n\nText in image: " ++ trimStr text else vision)
        else trimStr text
      match summarize (String.mk (summaryText.data.take 2000)) with
      | .ok s => { base with summary := some s }
      | .error _ => base
    else if vision ≠ "" then { base with summary := some vision }
    else base
  else
    if vision ≠ "" && trimStr vision ≠ "" then
      { contentText := some vision, contentOcr := none, summary := some vision }
    else
      { contentText := none, contentOcr := none, summary := none }

/-! ## Concrete instances used by the closed theorems below -/

/-- Three processed image items of user `user1` none of whose fields contain
the substring "images". -/
def imgItemA : Item :=
  ⟨"img1", "user1", .IMAGE, some "sunset at the beach", none, none, .PROCESSED, 3, none⟩

def imgItemB : Item :=
  ⟨"img2", "user1", .IMAGE, some "my cat", none, none, .PROCESSED, 2, none⟩

def imgItemC : Item :=
  ⟨"img3", "user1", .IMAGE, some "whiteboard sketch", none, none, .PROCESSED, 1, none⟩

/-- A note of user `user1` whose title matches the word "alpha". -/
def noteItemAlpha : Item :=
  ⟨"n1", "user1", .NOTE, some "alpha beta", none, none, .PROCESSED, 1, none⟩

/-- An item belonging to a different user, matching the same word. -/
def otherUserItem : Item :=
  ⟨"n2", "user2", .NOTE, some "alpha gamma", none, none, .PROCESSED, 9, none⟩

/-- A stored vector of length 1, mismatching the 2-dimensional query below. -/
noncomputable def recMismatch : VectorRecord := ⟨"vec-a", "a", [1]⟩

/-- A stored 2-dimensional vector equal to the query below. -/
noncomputable def recGood : VectorRecord := ⟨"vec-b", "b", [1, 0]⟩

/-- A stored 2-dimensional vector orthogonal to the query below. -/
noncomputable def recOrtho : VectorRecord := ⟨"vec-o", "o", [0, 1]⟩

/-! ## Helper lemmas -/

lemma mem_insertDesc {x y : Item} {l : List Item} :
    y ∈ insertDesc x l ↔ y = x ∨ y ∈ l := by
  induction l with
  | nil => simp [insertDesc]
  | cons a l ih =>
      simp only [insertDesc]
      split
      · simp
      · simp [ih]; tauto

lemma mem_foldl_insertDesc (l : List Item) (acc : List Item) (x : Item) :
    x ∈ l.foldl (fun acc y => insertDesc y acc) acc ↔ x ∈ acc ∨ x ∈ l := by
  induction l generalizing acc with
  | nil => simp
  | cons a l ih =>
      simp only [List.foldl_cons, ih, mem_insertDesc, List.mem_cons]
      tauto

lemma mem_sortByCreatedDesc {x : Item} {l : List Item} :
    x ∈ sortByCreatedDesc l ↔ x ∈ l := by
  simp [sortByCreatedDesc, mem_foldl_insertDesc]

/-- If `p` implies `q`, filtering by `p` ignores the elements `q` removes. -/
lemma filter_restrict {α : Type} {p q : α → Bool}
    (h : ∀ a, p a = true → q a = true) (l : List α) :
    l.filter p = (l.filter q).filter p := by
  induction l with
  | nil => rfl
  | cons a l ih =>
      by_cases hp : p a = true
      · rw [List.filter_cons_of_pos hp, List.filter_cons_of_pos (h a hp),
          List.filter_cons_of_pos hp, ih]
      · rw [List.filter_cons_of_neg (by simpa using hp)]
        by_cases hq : q a = true
        · rw [List.filter_cons_of_pos hq, List.filter_cons_of_neg (by simpa using hp), ih]
        · rw [List.filter_cons_of_neg (by simpa using hq), ih]

lemma keywordPred_userId {u : String} {tf : Option ItemType} {ws : List String}
    {it : Item} (h : keywordPred u tf ws it = true) : it.userId = u := by
  simp only [keywordPred, Bool.and_eq_true, beq_iff_eq] at h
  exact h.1.1

/-! ## C1 -/

/-- C1: for an item that exists and is `PENDING`, one `processItemJob`
invocation moves its status only along PENDING→PROCESSING→{PROCESSED,FAILED},
and after the job terminates — normally or by throwing (the case BullMQ
retries and, on exhaustion, leaves as the final outcome) — the item's status
is `PROCESSED` or `FAILED`, never `PROCESSING`. -/
theorem processItemJob_status_transitions (it0 : WorkerItem)
    (enrich : ItemFields → Except String ItemFields) (embedStep : Except String Unit)
    (h0 : it0.status = .PENDING) :
    List.Chain' statusStep (processItemJob (some it0) enrich embedStep).statusTrace ∧
    (∃ itF, (processItemJob (some it0) enrich embedStep).finalItem = some itF ∧
      itF.status ≠ .PROCESSING ∧ (itF.status = .PROCESSED ∨ itF.status = .FAILED)) := by
  cases he : enrich it0.fields with
  | error e =>
      refine ⟨?_, ⟨.FAILED, it0.fields⟩, by simp [processItemJob, he], by simp, by simp⟩
      simp [processItemJob, he, h0, statusStep]
  | ok f1 =>
      cases hb : embedStep with
      | ok u =>
          refine ⟨?_, ⟨.PROCESSED, f1⟩, by simp [processItemJob, he, hb], by simp, by simp⟩
          simp [processItemJob, he, hb, h0, statusStep]
      | error e =>
          refine ⟨?_, ⟨.PROCESSED, f1⟩, by simp [processItemJob, he, hb], by simp, by simp⟩
          simp [processItemJob, he, hb, h0, statusStep]

/-- Witness for C1 at a concrete pending item with a succeeding enrichment. -/
theorem processItemJob_status_transitions_witness :
    List.Chain' statusStep
      (processItemJob (some ⟨.PENDING, ⟨none, none, .NOTE⟩⟩) (fun f => .ok f) (.ok ())).statusTrace ∧
    (∃ itF, (processItemJob (some ⟨.PENDING, ⟨none, none, .NOTE⟩⟩)
        (fun f => .ok f) (.ok ())).finalItem = some itF ∧
      itF.status ≠ .PROCESSING ∧ (itF.status = .PROCESSED ∨ itF.status = .FAILED)) :=
  processItemJob_status_transitions ⟨.PENDING, ⟨none, none, .NOTE⟩⟩ (fun f => .ok f) (.ok ()) rfl

/-! ## C6 -/

lemma mk_append_dots_ne_empty (l : List Char) : String.mk l ++ "..." ≠ "" := by
  intro h
  have h2 : (String.mk l ++ "...").data = ("" : String).data := congrArg String.data h
  have h3 : ("..." : String).data = ['.', '.', '.'] := rfl
  simp [String.data_append, h3] at h2

lemma simpleSummary_ne_empty {text : String} (h : text ≠ "") : simpleSummary text ≠ "" := by
  unfold simpleSummary
  split
  · exact mk_append_dots_ne_empty _
  · exact h

/-- C6: with no AI provider configured, `processTextItem` completes (it is a
total function of the analysis outcome) and writes the truncation-fallback
summary: the text itself when it has at most 100 characters, otherwise its
first 100 characters followed by "..." — a non-empty string whenever the
stored text is non-empty.  The missing provider branch returns before any
fallible call, so the job neither fails nor retries because of it. -/
theorem processTextItem_unconfigured (analyze : Except String TextAnalysis)
    (text : String) (f : ItemFields) (h : text ≠ "") :
    (processTextItem false analyze text f).summary = some (simpleSummary text) ∧
    simpleSummary text ≠ "" ∧
    (text.data.length ≤ 100 → simpleSummary text = text) ∧
    (100 < text.data.length →
      simpleSummary text = String.mk (text.data.take 100) ++ "...") := by
  refine ⟨by simp [processTextItem], simpleSummary_ne_empty h, ?_, ?_⟩
  · intro hle
    unfold simpleSummary
    rw [if_neg (Nat.not_lt.mpr hle)]
  · intro hgt
    unfold simpleSummary
    rw [if_pos hgt]

/-- Witness for C6 at a short concrete text. -/
theorem processTextItem_unconfigured_witness :
    (processTextItem false (.error "no provider") "hello" ⟨none, none, .NOTE⟩).summary =
      some (simpleSummary "hello") ∧
    simpleSummary "hello" ≠ "" ∧
    (("hello" : String).data.length ≤ 100 → simpleSummary "hello" = "hello") ∧
    (100 < ("hello" : String).data.length →
      simpleSummary "hello" = String.mk (("hello" : String).data.take 100) ++ "...") :=
  processTextItem_unconfigured (.error "no provider") "hello" ⟨none, none, .NOTE⟩ (by decide)

/-! ## C5 -/

/-- C5 counterexample: a vision "description" consisting of a single space is
a non-empty string, yet with OCR throwing nothing at all is persisted into
`Content.text` (the source guards both writes behind
`visionDescription && visionDescription.trim()`). -/
theorem processImageFile_blank_vision_counterexample :
    (processImageFile false (fun _ => .error "") "pic"
        (.error "ocr failed") (.ok " ")).contentText = none ∧
    (" " : String) ≠ "" := by
  exact ⟨by decide, by decide⟩

/-- C5 (amended): for a file job on an image item whose OCR branch throws and
whose vision branch returns a description with non-whitespace content, the
join still persists the vision description into `Content.text` (and the job
completes: `processImageFile` is total, the source catches every error). -/
theorem processImageFile_vision_persisted (aiConfigured : Bool)
    (summarize : String → Except String String) (title e d : String)
    (hd : trimStr d ≠ "") :
    (processImageFile aiConfigured summarize title (.error e) (.ok d)).contentText =
      some d := by
  have hne : d ≠ "" := by
    intro h
    rw [h] at hd
    exact hd rfl
  simp [processImageFile, hne, hd]

/-- Witness for C5's amended theorem at a concrete description. -/
theorem processImageFile_vision_persisted_witness :
    (processImageFile false (fun _ => .error "") "pic"
        (.error "ocr boom") (.ok "a dog on a beach")).contentText =
      some "a dog on a beach" :=
  processImageFile_vision_persisted false (fun _ => .error "") "pic" "ocr boom"
    "a dog on a beach" (by decide)

/-! ## C7 -/

/-- C7: the query interpreter on "images with dog" detects the IMAGE kind
filter and cleans the query to "dog", which contains "dog" and contains
neither "images" nor "with". -/
theorem extractTypeFilter_images_with_dog :
    extractTypeFilter "images with dog" = (some ItemType.IMAGE, "dog") ∧
    strHas (extractTypeFilter "images with dog").2 "dog" = true ∧
    strHas (extractTypeFilter "images with dog").2 "images" = false ∧
    strHas (extractTypeFilter "images with dog").2 "with" = false := by
  exact ⟨by decide, by decide, by decide, by decide⟩

/-! ## C3 -/

/-- C3: evaluating the search controller at the claim's scenario.  For the
query "images" the interpreter does detect the IMAGE filter with an empty
cleaned query, but when the semantic phase contributes nothing
(`similarItems = []`) the keyword branch rebuilds
`searchQuery = cleanedQuery || query = "images"` and keyword-searches for the
literal word "images"; with three image items not containing that word, the
controller returns the empty result list instead of the three items the
kind-only fallback was meant to return (the `typeFilter && !searchQuery` arm
guarding that fallback is unreachable, since `searchQuery` is never empty). -/
theorem semanticSearch_images_kind_fallback_dead :
    semanticSearchRun [imgItemA, imgItemB, imgItemC] "user1" "images" 10 [] = [] ∧
    (extractTypeFilter "images").1 = some ItemType.IMAGE ∧
    (extractTypeFilter "images").2 = "" := by
  exact ⟨by decide, by decide, by decide⟩

/-! ## C2 -/

/-- C2 counterexample: an item found by the semantic path with score 0.8
that also matches the keyword predicate (so the keyword path would find it
too) is returned with the raw semantic score 0.8, not with the weighted
hybrid score 0.7×0.8 + 0.3×0.6 the claim requires (the keyword path's flat
score being 0.6); no merge happens and the response rows carry no `source`
field at all. -/
theorem noHybridMerge_counterexample :
    semanticSearchRun [noteItemAlpha] "user1" "alpha" 10 [("n1", Rat.mk' 4 5)] =
      [⟨noteItemAlpha, Rat.mk' 4 5⟩] ∧
    wordCond noteItemAlpha "alpha" = true ∧
    (Rat.mk' 4 5 : ℚ) ≠ specHybridScore (Rat.mk' 4 5) keywordScore := by
  refine ⟨by decide, by decide, ?_⟩
  simp only [specHybridScore, keywordScore, Rat.mk'_eq_divInt, Rat.divInt_eq_div]
  norm_num

/-- C2 (amended): the engine never combines scores.  Every returned row's
score is the flat keyword-fallback score 0.6, the flat direct-type-search
score 0.7, or the untouched similarity score of that item in the semantic
phase's result list; keyword search runs only when the semantic phase
returned nothing. -/
theorem semanticSearchRun_no_merge (store : List Item) (u query : String)
    (limit : Nat) (sims : List (String × ℚ)) (r : SearchResult)
    (hr : r ∈ semanticSearchRun store u query limit sims) :
    r.relevanceScore = keywordScore ∨ r.relevanceScore = typeScore ∨
    ∃ p ∈ sims, p.1 = r.item.id ∧ p.2 = r.relevanceScore := by
  unfold semanticSearchRun at hr
  split at hr
  · -- keyword fallback: flat score 0.6
    simp only [keywordFallback, List.mem_map] at hr
    obtain ⟨it, -, rfl⟩ := hr
    exact Or.inl rfl
  · -- semantic branch
    simp only [semanticBranch] at hr
    split at hr
    · -- direct type search: flat score 0.7
      simp only [List.mem_map] at hr
      obtain ⟨it, -, rfl⟩ := hr
      exact Or.inr (Or.inl rfl)
    · -- semantic results: score copied from `sims`
      simp only [List.mem_filterMap, Option.map_eq_some'] at hr
      obtain ⟨p, hp, it, hfind, rfl⟩ := hr
      refine Or.inr (Or.inr ⟨p, hp, ?_, rfl⟩)
      have h2 := List.find?_some hfind
      simp only [beq_iff_eq] at h2
      exact h2.symm

/-- Witness for C2's amended theorem: the semantic score 0.8 is passed
through untouched. -/
theorem semanticSearchRun_no_merge_witness :
    (⟨noteItemAlpha, Rat.mk' 4 5⟩ : SearchResult).relevanceScore = keywordScore ∨
    (⟨noteItemAlpha, Rat.mk' 4 5⟩ : SearchResult).relevanceScore = typeScore ∨
    ∃ p ∈ [(("n1" : String), (Rat.mk' 4 5 : ℚ))],
      p.1 = (⟨noteItemAlpha, Rat.mk' 4 5⟩ : SearchResult).item.id ∧
      p.2 = (⟨noteItemAlpha, Rat.mk' 4 5⟩ : SearchResult).relevanceScore :=
  semanticSearchRun_no_merge [noteItemAlpha] "user1" "alpha" 10
    [("n1", Rat.mk' 4 5)] ⟨noteItemAlpha, Rat.mk' 4 5⟩ (by decide)

/-! ## C10 -/

lemma semPred_userId {sims : List (String × ℚ)} {u : String} {tfo : Option ItemType}
    {it : Item} (h : semPred sims u tfo it = true) : it.userId = u := by
  simp only [semPred, Bool.and_eq_true, beq_iff_eq] at h
  exact h.1.2

lemma mem_keywordPhase_userId {store : List Item} {u : String} {tf : Option ItemType}
    {ws : List String} {limit : Nat} {it : Item}
    (h : it ∈ keywordPhase store u tf ws limit) : it.userId = u := by
  unfold keywordPhase at h
  have h2 := List.mem_of_mem_take h
  rw [mem_sortByCreatedDesc] at h2
  exact keywordPred_userId (List.of_mem_filter h2)

lemma keywordPhase_filter_userId (store : List Item) (u : String)
    (tf : Option ItemType) (ws : List String) (limit : Nat) :
    keywordPhase store u tf ws limit =
      keywordPhase (store.filter (fun it => it.userId == u)) u tf ws limit := by
  unfold keywordPhase
  rw [filter_restrict (q := fun it => it.userId == u)
    (fun a ha => by simpa [beq_iff_eq] using keywordPred_userId ha) store]

lemma keywordFallback_filter_userId (store : List Item) (u query : String) (limit : Nat) :
    keywordFallback store u query limit =
      keywordFallback (store.filter (fun it => it.userId == u)) u query limit := by
  simp only [keywordFallback]
  rw [keywordPhase_filter_userId]

lemma semanticBranch_filter_userId (store : List Item) (u query : String)
    (limit : Nat) (sims : List (String × ℚ)) :
    semanticBranch store u query limit sims =
      semanticBranch (store.filter (fun it => it.userId == u)) u query limit sims := by
  simp only [semanticBranch]
  rw [filter_restrict (q := fun it => it.userId == u)
    (fun a ha => by simpa [beq_iff_eq] using semPred_userId ha) store,
    keywordPhase_filter_userId]

lemma semanticSearchRun_filter_userId (store : List Item) (u query : String)
    (limit : Nat) (sims : List (String × ℚ)) :
    semanticSearchRun store u query limit sims =
      semanticSearchRun (store.filter (fun it => it.userId == u)) u query limit sims := by
  simp only [semanticSearchRun]
  rw [keywordFallback_filter_userId, semanticBranch_filter_userId]

/-- C10: search results are scoped to the session user.  (1) Every returned
row's item belongs to the user id taken from the session; (2) two item stores
agreeing on the user's items (in order) produce identical search results,
whatever the other users' items are — the semantic phase outcome being the
same, since the vector store is a separate shared structure. -/
theorem semanticSearch_user_scoped :
    (∀ (store : List Item) (u query : String) (limit : Nat)
        (sims : List (String × ℚ)) (r : SearchResult),
        r ∈ semanticSearchRun store u query limit sims → r.item.userId = u) ∧
    (∀ (s1 s2 : List Item) (u query : String) (limit : Nat)
        (sims : List (String × ℚ)),
        s1.filter (fun it => it.userId == u) = s2.filter (fun it => it.userId == u) →
        semanticSearchRun s1 u query limit sims =
          semanticSearchRun s2 u query limit sims) := by
  constructor
  · intro store u query limit sims r hr
    unfold semanticSearchRun at hr
    split at hr
    · simp only [keywordFallback, List.mem_map] at hr
      obtain ⟨it, hit, rfl⟩ := hr
      exact mem_keywordPhase_userId hit
    · simp only [semanticBranch] at hr
      split at hr
      · simp only [List.mem_map] at hr
        obtain ⟨it, hit, rfl⟩ := hr
        exact mem_keywordPhase_userId hit
      · simp only [List.mem_filterMap, Option.map_eq_some'] at hr
        obtain ⟨p, hp, it, hfind, rfl⟩ := hr
        have h2 := List.mem_of_find?_eq_some hfind
        exact semPred_userId (List.of_mem_filter h2)
  · intro s1 s2 u query limit sims h
    rw [semanticSearchRun_filter_userId s1, semanticSearchRun_filter_userId s2, h]

/-- Witness for C10: adding another user's matching item changes nothing, and
the one returned row belongs to the session user. -/
theorem semanticSearch_user_scoped_witness :
    semanticSearchRun [noteItemAlpha, otherUserItem] "user1" "alpha" 10 [] =
      semanticSearchRun [noteItemAlpha] "user1" "alpha" 10 [] ∧
    (⟨noteItemAlpha, keywordScore⟩ : SearchResult).item.userId = "user1" :=
  ⟨semanticSearch_user_scoped.2 [noteItemAlpha, otherUserItem] [noteItemAlpha]
      "user1" "alpha" 10 [] (by decide),
   semanticSearch_user_scoped.1 [noteItemAlpha] "user1" "alpha" 10 []
      ⟨noteItemAlpha, keywordScore⟩ (by decide)⟩

/-! ## C8 -/

lemma dotProduct_self (v : List ℝ) : dotProduct v v = sumSq v := by
  induction v with
  | nil => rfl
  | cons a l ih =>
      simp only [dotProduct, sumSq, List.zipWith_cons_cons, List.map_cons,
        List.sum_cons] at ih ⊢
      rw [ih]

lemma sumSq_nonneg (v : List ℝ) : 0 ≤ sumSq v := by
  refine List.sum_nonneg ?_
  intro x hx
  obtain ⟨y, -, rfl⟩ := List.mem_map.mp hx
  exact mul_self_nonneg y

lemma sumSq_pos {v : List ℝ} (h : ∃ x ∈ v, x ≠ 0) : 0 < sumSq v := by
  obtain ⟨x, hx, hne⟩ := h
  have hmem : x * x ∈ v.map (fun y => y * y) := List.mem_map.mpr ⟨x, hx, rfl⟩
  have hle : x * x ≤ sumSq v := by
    refine List.single_le_sum ?_ _ hmem
    intro y hy
    obtain ⟨z, -, rfl⟩ := List.mem_map.mp hy
    exact mul_self_nonneg z
  exact lt_of_lt_of_le (mul_self_pos.mpr hne) hle

/-- C8: `cosineSimilarity(v, v) = 1` for every vector with a nonzero
component, and `cosineSimilarity(v, 0)` against the all-zero vector of the
same length is the defined value 0 — an `ok` result, not an error. -/
theorem cosineSimilarity_self_and_zero :
    (∀ v : List ℝ, (∃ x ∈ v, x ≠ 0) → cosineSimilarity v v = .ok 1) ∧
    (∀ v : List ℝ, cosineSimilarity v (List.replicate v.length 0) = .ok 0) := by
  constructor
  · intro v hv
    have hpos : 0 < sumSq v := sumSq_pos hv
    have hs : Real.sqrt (sumSq v) ≠ 0 := (Real.sqrt_pos.mpr hpos).ne'
    unfold cosineSimilarity
    rw [if_neg (by simp), if_neg (by simp [hs]), dotProduct_self,
      Real.mul_self_sqrt (sumSq_nonneg v), div_self hpos.ne']
  · intro v
    have hz : sumSq (List.replicate v.length (0 : ℝ)) = 0 := by
      simp [sumSq, List.map_replicate]
    unfold cosineSimilarity
    rw [if_neg (by simp), if_pos (Or.inr (by rw [hz, Real.sqrt_zero]))]

/-- Witness for C8 at the one-dimensional unit vector. -/
theorem cosineSimilarity_self_and_zero_witness :
    cosineSimilarity [(1 : ℝ)] [(1 : ℝ)] = .ok 1 ∧
    cosineSimilarity [(1 : ℝ)] (List.replicate ([(1 : ℝ)].length) 0) = .ok 0 :=
  ⟨cosineSimilarity_self_and_zero.1 [1] ⟨1, by simp, one_ne_zero⟩,
   cosineSimilarity_self_and_zero.2 [1]⟩

/-! ## C4 and C9 helper lemmas -/

lemma mem_insertHitDesc {x y : VectorHit} {l : List VectorHit} :
    y ∈ insertHitDesc x l ↔ y = x ∨ y ∈ l := by
  induction l with
  | nil => simp [insertHitDesc]
  | cons a l ih =>
      simp only [insertHitDesc]
      split
      · simp
      · simp [ih]; tauto

lemma mem_sortHitsDesc {x : VectorHit} {l : List VectorHit} :
    x ∈ sortHitsDesc l ↔ x ∈ l := by
  suffices h : ∀ (l acc : List VectorHit),
      x ∈ l.foldl (fun acc y => insertHitDesc y acc) acc ↔ x ∈ acc ∨ x ∈ l by
    simpa [sortHitsDesc] using h l []
  intro l
  induction l with
  | nil => simp
  | cons a l ih =>
      intro acc
      simp only [List.foldl_cons, ih, mem_insertHitDesc, List.mem_cons]
      tauto

lemma mem_insertSimDesc {x y : SimilarResult} {l : List SimilarResult} :
    y ∈ insertSimDesc x l ↔ y = x ∨ y ∈ l := by
  induction l with
  | nil => simp [insertSimDesc]
  | cons a l ih =>
      simp only [insertSimDesc]
      split
      · simp
      · simp [ih]; tauto

lemma mem_sortSimDesc {x : SimilarResult} {l : List SimilarResult} :
    x ∈ sortSimDesc l ↔ x ∈ l := by
  suffices h : ∀ (l acc : List SimilarResult),
      x ∈ l.foldl (fun acc y => insertSimDesc y acc) acc ↔ x ∈ acc ∨ x ∈ l by
    simpa [sortSimDesc] using h l []
  intro l
  induction l with
  | nil => simp
  | cons a l ih =>
      intro acc
      simp only [List.foldl_cons, ih, mem_insertSimDesc, List.mem_cons]
      tauto

lemma cosineSimilarity_ok_length {a b : List ℝ} {s : ℝ}
    (h : cosineSimilarity a b = .ok s) : a.length = b.length := by
  unfold cosineSimilarity at h
  by_cases hl : a.length ≠ b.length
  · rw [if_pos hl] at h
    exact absurd h (by simp)
  · exact not_ne_iff.mp hl

lemma sumSq_e1 : sumSq [(1 : ℝ), 0] = 1 := by norm_num [sumSq]

lemma sumSq_e2 : sumSq [(0 : ℝ), 1] = 1 := by norm_num [sumSq]

lemma cosine_e1_e1 : cosineSimilarity [(1 : ℝ), 0] [(1 : ℝ), 0] = .ok 1 := by
  unfold cosineSimilarity
  simp only [sumSq_e1, Real.sqrt_one]
  rw [if_neg (by simp), if_neg (by norm_num)]
  norm_num [dotProduct]

lemma cosine_e1_e2 : cosineSimilarity [(1 : ℝ), 0] [(0 : ℝ), 1] = .ok 0 := by
  unfold cosineSimilarity
  simp only [sumSq_e1, sumSq_e2, Real.sqrt_one]
  rw [if_neg (by simp), if_neg (by norm_num)]
  norm_num [dotProduct]

/-! ## C4 -/

/-- C4 counterexample: with a stored vector of length 1 alongside a matching
2-dimensional one, a 2-dimensional query does not surface any error —
`search` returns the result of the matching record and silently skips the
mismatched one, even though `cosineSimilarity` threw on it. -/
theorem dimensionMismatch_skipped_counterexample :
    vectorStoreSearch [recMismatch, recGood] [(1 : ℝ), 0] 10 =
      [⟨"vec-b", "b", 1⟩] ∧
    cosineSimilarity [(1 : ℝ), 0] recMismatch.vector =
      .error "Vectors must have same length" := by
  have h1 : cosineSimilarity [(1 : ℝ), 0] [(1 : ℝ)] =
      .error "Vectors must have same length" := by
    unfold cosineSimilarity
    rw [if_pos (by simp)]
  refine ⟨?_, h1⟩
  simp [vectorStoreSearch, searchHits, h1, cosine_e1_e1, recMismatch, recGood,
    sortHitsDesc, insertHitDesc, List.filterMap_cons]

/-- C4 (amended): `cosineSimilarity` does throw a dimension-mismatch error
when the lengths differ, but `search` catches it per record and skips the
offending record: every returned hit comes from a stored vector whose length
equals the query's, and no error reaches `search`'s caller (its result type
is a plain list). -/
theorem cosine_mismatch_raises_search_skips :
    (∀ a b : List ℝ, a.length ≠ b.length →
        cosineSimilarity a b = .error "Vectors must have same length") ∧
    (∀ (recs : List VectorRecord) (q : List ℝ) (limit : Nat) (hit : VectorHit),
        hit ∈ vectorStoreSearch recs q limit →
        ∃ r ∈ recs, r.id = hit.id ∧ r.itemId = hit.itemId ∧
          q.length = r.vector.length ∧ cosineSimilarity q r.vector = .ok hit.score) := by
  constructor
  · intro a b h
    unfold cosineSimilarity
    rw [if_pos h]
  · intro recs q limit hit hmem
    unfold vectorStoreSearch at hmem
    have h2 := List.mem_of_mem_take hmem
    rw [mem_sortHitsDesc] at h2
    simp only [searchHits, List.mem_filterMap] at h2
    obtain ⟨r, hr, hmk⟩ := h2
    refine ⟨r, hr, ?_⟩
    cases hc : cosineSimilarity q r.vector with
    | error e => rw [hc] at hmk; exact absurd hmk (by simp)
    | ok s =>
        rw [hc] at hmk
        simp only [Option.some.injEq] at hmk
        subst hmk
        refine ⟨rfl, rfl, cosineSimilarity_ok_length hc, ?_⟩
        simp only []

/-- Witness for C4's amended theorem at a concrete mismatched pair. -/
theorem cosine_mismatch_raises_search_skips_witness :
    cosineSimilarity [(1 : ℝ), 0] [(1 : ℝ)] = .error "Vectors must have same length" :=
  cosine_mismatch_raises_search_skips.1 [(1 : ℝ), 0] [(1 : ℝ)] (by simp)

/-! ## C9 -/

/-- C9 counterexample: one stored vector orthogonal to the query scores 0,
below the minimum score 0.3, yet `searchSimilar` returns it ("no results
above threshold, returning top anyway"). -/
theorem searchSimilar_below_minScore_counterexample :
    searchSimilar [recOrtho] [(1 : ℝ), 0] 10 (3 / 10) = [⟨"o", 0⟩] ∧
    ¬ ((3 / 10 : ℝ) ≤ 0) := by
  have hlt : ¬ ((3 / 10 : ℝ) ≤ 0) := by norm_num
  refine ⟨?_, hlt⟩
  simp [searchSimilar, vectorStoreSearch, searchHits, cosine_e1_e2, recOrtho,
    sortHitsDesc, insertHitDesc, sortSimDesc, insertSimDesc,
    List.filterMap_cons, List.filter_cons, hlt]

/-- C9 (amended): whenever at least one candidate reaches `minScore`, every
result of `searchSimilar` has score ≥ `minScore`; only when no candidate
reaches the threshold does the fallback return the top candidates regardless
of score. -/
theorem searchSimilar_minScore (recs : List VectorRecord) (q : List ℝ)
    (limit : Nat) (minScore : ℝ)
    (h : ∃ hit ∈ vectorStoreSearch recs q (limit * 3), minScore ≤ hit.score) :
    ∀ r ∈ searchSimilar recs q limit minScore, minScore ≤ r.score := by
  obtain ⟨hit, hmem, hge⟩ := h
  intro r hr
  unfold searchSimilar at hr
  have hresne : (vectorStoreSearch recs q (limit * 3)).isEmpty = false := by
    cases hv : vectorStoreSearch recs q (limit * 3) with
    | nil => rw [hv] at hmem; exact absurd hmem (by simp)
    | cons a l => rfl
  rw [if_neg (by simp [hresne])] at hr
  have hfmem : (⟨hit.itemId, hit.score⟩ : SimilarResult) ∈
      sortSimDesc (((vectorStoreSearch recs q (limit * 3)).filter
        (fun r => minScore ≤ r.score)).map (fun r => ⟨r.itemId, r.score⟩)) := by
    rw [mem_sortSimDesc]
    exact List.mem_map.mpr ⟨hit, List.mem_filter.mpr ⟨hmem, by simpa using hge⟩, rfl⟩
  have hfne : (sortSimDesc (((vectorStoreSearch recs q (limit * 3)).filter
      (fun r => minScore ≤ r.score)).map (fun r => ⟨r.itemId, r.score⟩))).isEmpty = false := by
    cases hv : sortSimDesc (((vectorStoreSearch recs q (limit * 3)).filter
        (fun r => minScore ≤ r.score)).map (fun r => ⟨r.itemId, r.score⟩)) with
    | nil => rw [hv] at hfmem; exact absurd hfmem (by simp)
    | cons a l => rfl
  rw [if_neg (by simp [hfne])] at hr
  have h3 := List.mem_of_mem_take hr
  rw [mem_sortSimDesc] at h3
  obtain ⟨r', hr', rfl⟩ := List.mem_map.mp h3
  have h4 := List.mem_filter.mp hr'
  simpa using h4.2

/-- Witness for C9's amended theorem: a stored vector equal to the query
scores 1 ≥ 0.5 and is returned with that score. -/
theorem searchSimilar_minScore_witness :
    (1 / 2 : ℝ) ≤ (⟨"b", (1 : ℝ)⟩ : SimilarResult).score := by
  have heval : vectorStoreSearch [recGood] [(1 : ℝ), 0] (1 * 3) = [⟨"vec-b", "b", 1⟩] := by
    simp [vectorStoreSearch, searchHits, cosine_e1_e1, recGood,
      sortHitsDesc, insertHitDesc]
  have hhalf : ((1 : ℝ) / 2 ≤ 1) := by norm_num
  have heval3 : vectorStoreSearch [recGood] [(1 : ℝ), 0] 3 = [⟨"vec-b", "b", 1⟩] := heval
  have h2inv : ((2 : ℝ)⁻¹ ≤ 1) := by norm_num
  refine searchSimilar_minScore [recGood] [(1 : ℝ), 0] 1 (1 / 2)
    ⟨⟨"vec-b", "b", 1⟩, by rw [heval]; simp, by norm_num⟩ ⟨"b", 1⟩ ?_
  simp [searchSimilar, heval, heval3, sortSimDesc, insertSimDesc, List.filterMap_cons,
    List.filter_cons, hhalf, h2inv]

end Synapse










